import Mathlib

/-!
# Naviary — verification of the runtime and type checker

Shallow embedding of the Naviary repository:

* `src/runtime/src/object.rs` — typed dynamic arrays (`IntArrayObject`,
  `FloatArrayObject`, `BoolArrayObject`, `StringArrayObject`) with
  `get` / `set` / `push` / `pop` / `grow` / `resize`;
* `src/runtime/src/lib.rs` — the C-ABI entry points
  (`naviary_array_set_<T>` with its implicit length growth);
* `src/runtime/src/garbage_collector.rs` — root registration,
  mark phase, sweep phase, `collect`, and byte accounting;
* `src/src/typechecker/mod.rs` — the scope-stack type checker, together
  with the AST of `src/compiler/src/ast/mod.rs`.

Machine integers (`usize`, `i64`) are modelled as `Nat` / `Int`; the
concrete scenarios stay far below 2^64, so wrap-around never occurs.
Rust panics are modelled as `none` in an outer `Option`; functions that
return `Option<T>` in Rust keep that option as an inner `Option`.
Uninitialized memory produced by `alloc` / `realloc` is modelled by an
explicit `uninit` element supplied at each instantiation.
-/

namespace Naviary

/-! ## Runtime array objects (`src/runtime/src/object.rs`)

All four array objects share the layout `{ header, length, capacity,
elements }`; the element buffer is a separate out-of-band allocation of
`capacity` slots, `none` when the `elements` pointer is null.  The
`get` / `set` / `push` / `pop` / `grow` bodies of `IntArrayObject`,
`FloatArrayObject` and `BoolArrayObject` are written out identically per
type in the source; they are embedded once, generically in the element
type `α`, and instantiated per type below.  `StringArrayObject` shares
`get` / `set` / `push` / `pop` but has its own `grow` / `resize`. -/

structure ArrayObject (α : Type) where
  length : Nat
  capacity : Nat
  /-- The element buffer; `none` models a null `elements` pointer. -/
  elements : Option (List α)
deriving Repr, DecidableEq

namespace ArrayObject

/-- The raw buffer contents (reading through a null pointer yields `[]`;
all theorems below assume well-formed states where this never happens). -/
def buf (a : ArrayObject α) : List α := a.elements.getD []

/-- Well-formedness maintained by the runtime: the logical length fits the
capacity and the buffer has exactly `capacity` slots (so a null buffer —
`buf = []` — is only possible at capacity 0). -/
def wf (a : ArrayObject α) : Prop :=
  a.length ≤ a.capacity ∧ a.buf.length = a.capacity

instance (a : ArrayObject α) : Decidable a.wf := by
  unfold wf; exact inferInstance

/-- `IntArrayObject::get` (src/runtime/src/object.rs:76-82), identical for
the other three element types.  The bounds violation panics; `none` is
the panic. -/
def get (a : ArrayObject α) (index : Nat) : Option α :=
  if index ≥ a.length then none   -- panic: Array index out of bounds
  else a.buf.get? index

/-- `IntArrayObject::set` (src/runtime/src/object.rs:84-92), identical for
the other three element types.  On an in-bounds index the slot is
overwritten (for `length > capacity` states the raw store would corrupt
neighbouring memory; `List.set` past the buffer end models that write as
lost). -/
def set (a : ArrayObject α) (index : Nat) (value : α) :
    Option (ArrayObject α) :=
  if index ≥ a.length then none   -- panic: Array index out of bounds
  else some { a with elements := some (a.buf.set index value) }

/-- The new-capacity formula shared by all four `grow` implementations
(src/runtime/src/object.rs:117-127, 211-221, 306-316, 395-405):
`0 => 4`, `< 1024 => capacity * 2`, otherwise `capacity + capacity / 2`. -/
def growCapacity (capacity : Nat) : Nat :=
  if capacity = 0 then 4
  else if capacity < 1024 then capacity * 2
  else capacity + capacity / 2

/-- `IntArrayObject::resize` (src/runtime/src/object.rs:129-157),
identical for `FloatArrayObject` and `BoolArrayObject`: shrinking
panics, equal capacity is a no-op, otherwise the buffer is reallocated
(prefix preserved, new slots uninitialized — modelled by `uninit`). -/
def primResize (uninit : α) (a : ArrayObject α) (newCapacity : Nat) :
    Option (ArrayObject α) :=
  if newCapacity < a.capacity then none   -- panic: capacity cannot be decreased
  else if newCapacity = a.capacity then some a
  else
    some { a with
      elements := some (a.buf.take a.capacity ++
        List.replicate (newCapacity - a.capacity) uninit)
      capacity := newCapacity }

/-- `IntArrayObject::grow` and its `Float` / `Bool` twins. -/
def primGrow (uninit : α) (a : ArrayObject α) : Option (ArrayObject α) :=
  primResize uninit a (growCapacity a.capacity)

/-- `IntArrayObject::push` (src/runtime/src/object.rs:94-105), identical
for the other element types up to which `resize` the `grow` call
reaches; the string version is below.  When `length + 1 >= capacity`
the buffer grows first; then the value is stored at index `length` and
the length incremented. -/
def primPush (uninit : α) (a : ArrayObject α) (value : α) :
    Option (ArrayObject α) :=
  let step := if a.length + 1 ≥ a.capacity then primGrow uninit a else some a
  step.map fun a' =>
    { a' with
      elements := some (a'.buf.set a'.length value)
      length := a'.length + 1 }

/-- `IntArrayObject::pop` (src/runtime/src/object.rs:107-115), identical
for the other three element types.  The Rust function returns
`Option<T>` and never panics: the outer option is the (unused) panic
channel, the inner option is the Rust return value. -/
def pop (a : ArrayObject α) : Option (Option α × ArrayObject α) :=
  if a.length = 0 then some (none, a)
  else
    some (a.buf.get? (a.length - 1), { a with length := a.length - 1 })

/-- `StringArrayObject::resize` (src/runtime/src/object.rs:407-447): the
guard rejects only `new_capacity < length` (not `< capacity`), equal
capacity is a no-op, otherwise the buffer is reallocated to exactly
`newCapacity` slots and slots past the old capacity are
null-initialized. -/
def stringResize (a : ArrayObject α) (uninit : α)
    (newCapacity : Nat) : Option (ArrayObject α) :=
  if newCapacity < a.length then none   -- panic: Cannot resize below current length
  else if newCapacity = a.capacity then some a
  else
    some { a with
      elements := some
        (if newCapacity > a.capacity then
          a.buf.take a.capacity ++
            List.replicate (newCapacity - a.capacity) uninit
        else a.buf.take newCapacity)
      capacity := newCapacity }

end ArrayObject

/-! ### The four instantiations

`NaviaryInt` is `i64`; `NaviaryFloat` values are only ever moved, never
computed with, so a float is modelled as its 64-bit pattern; a string
array slot holds a possibly-null pointer to a `StringObject`, modelled
as an optional object id. -/

abbrev NaviaryInt := Int
abbrev NaviaryFloat := Nat        -- opaque 64-bit pattern
abbrev StringRef := Option Nat    -- null = none

abbrev IntArrayObject := ArrayObject NaviaryInt
abbrev FloatArrayObject := ArrayObject NaviaryFloat
abbrev BoolArrayObject := ArrayObject Bool
abbrev StringArrayObject := ArrayObject StringRef

/-- Zero-filled memory, as produced by `ptr::write_bytes(ptr, 0, ..)`:
the all-zero pattern per element type. -/
def intZero : NaviaryInt := 0
def floatZero : NaviaryFloat := 0
def boolZero : Bool := false
def stringZero : StringRef := none

def IntArrayObject.push (a : IntArrayObject) (v : NaviaryInt) :=
  ArrayObject.primPush intZero a v
def FloatArrayObject.push (a : FloatArrayObject) (v : NaviaryFloat) :=
  ArrayObject.primPush floatZero a v
def BoolArrayObject.push (a : BoolArrayObject) (v : Bool) :=
  ArrayObject.primPush boolZero a v
def IntArrayObject.resize (a : IntArrayObject) (n : Nat) :=
  ArrayObject.primResize intZero a n
def FloatArrayObject.resize (a : FloatArrayObject) (n : Nat) :=
  ArrayObject.primResize floatZero a n
def BoolArrayObject.resize (a : BoolArrayObject) (n : Nat) :=
  ArrayObject.primResize boolZero a n
def StringArrayObject.resize (a : StringArrayObject) (n : Nat) :=
  ArrayObject.stringResize a stringZero n

/-- `StringArrayObject::grow` (src/runtime/src/object.rs:395-405): same
capacity formula, but dispatching to the string `resize`. -/
def StringArrayObject.grow (a : StringArrayObject) :=
  StringArrayObject.resize a (ArrayObject.growCapacity a.capacity)

/-- `StringArrayObject::push` (src/runtime/src/object.rs:374-384). -/
def StringArrayObject.push (a : StringArrayObject) (v : StringRef) :
    Option StringArrayObject :=
  let step := if a.length + 1 ≥ a.capacity then a.grow else some a
  step.map fun a' =>
    { a' with
      elements := some (a'.buf.set a'.length v)
      length := a'.length + 1 }

/-! ## Allocation (`GarbageCollector::allocate_array` and the typed
wrappers, src/runtime/src/garbage_collector.rs:231-350)

The `init_fn` closures all set `length = 0`, `capacity = capacity`; for
`capacity > 0` the element buffer is allocated and zero-initialized via
`ptr::write_bytes(ptr, 0, capacity)`, for `capacity = 0` the `elements`
pointer is null. -/

def mkArrayObject (zero : α) (capacity : Nat) : ArrayObject α :=
  { length := 0
    capacity := capacity
    elements :=
      if capacity > 0 then some (List.replicate capacity zero) else none }

/-- `GarbageCollector::allocate_int_array` — the object it initializes. -/
def allocateIntArrayObject (capacity : Nat) : IntArrayObject :=
  mkArrayObject intZero capacity
def allocateFloatArrayObject (capacity : Nat) : FloatArrayObject :=
  mkArrayObject floatZero capacity
def allocateBoolArrayObject (capacity : Nat) : BoolArrayObject :=
  mkArrayObject boolZero capacity
def allocateStringArrayObject (capacity : Nat) : StringArrayObject :=
  mkArrayObject stringZero capacity

/-! ## C-ABI store entry points (`src/runtime/src/lib.rs:53-69` and the
float / bool / string copies)

`naviary_array_set_<T>` first grows `length` to `index + 1` whenever
`index >= length` — with no capacity check — and then calls `set`. -/

def naviaryArraySet (a : ArrayObject α) (index : Nat) (value : α) :
    Option (ArrayObject α) :=
  let a := if index ≥ a.length then { a with length := index + 1 } else a
  a.set index value

/-! ## Root registration (`src/runtime/src/garbage_collector.rs:29-48`)

Pointers are modelled as addresses (`Nat`), null = 0.  `ObjectHeader` on
the 64-bit target is `{ bool, *mut, usize, repr(C) enum }`, padded to 32
bytes, so `(p as *mut ObjectHeader).sub(1)` is the address `p - 32`.
`add_root` casts the incoming pointer without any offset and pushes it if
absent; `remove_root` first subtracts one header size and then retains
every root different from that shifted address. -/

def HEADER_SIZE : Nat := 32

def addRoot (roots : List Nat) (dataPtr : Nat) : List Nat :=
  if dataPtr = 0 then roots
  else if dataPtr ∈ roots then roots
  else roots ++ [dataPtr]

def removeRoot (roots : List Nat) (dataPtr : Nat) : List Nat :=
  if dataPtr = 0 then roots
  else roots.filter (fun root => root != dataPtr - HEADER_SIZE)

/-! ## The mark-and-sweep collector as a graph algorithm
(`src/runtime/src/garbage_collector.rs:50-126`)

Objects are identified by their address (`id`).  For a `StringArray` the
`slots` list holds the element slots `[0, length)` (`none` = null slot);
for the other object types the mark phase never reads the payload.  The
per-header `is_marked` bit is represented as membership of the object's
id in a `marks` set, and `mark_object`'s self-terminating recursion (it
marks before descending, so it can visit each object at most once) is
embedded with an explicit fuel; `objects.length + 1` units of fuel are
provably enough, which is proved and used below. -/

inductive ObjectType
  | string | intArray | floatArray | boolArray | stringArray
deriving DecidableEq, Repr

structure HeapObject where
  id : Nat
  otype : ObjectType
  slots : List (Option Nat)
deriving DecidableEq, Repr

abbrev Heap := List HeapObject

def lookupObject (h : Heap) (i : Nat) : Option HeapObject :=
  h.find? (fun o => o.id == i)

/-- The object ids `mark_object` recurses into: for a `StringArray`, the
non-null element slots in order; for every other type, none
(src/runtime/src/garbage_collector.rs:68-79). -/
def childIds (o : HeapObject) : List Nat :=
  match o.otype with
  | .stringArray => o.slots.reduceOption
  | _ => []

/-- `GarbageCollector::mark_object`
(src/runtime/src/garbage_collector.rs:56-81): stop on an already-marked
object, otherwise mark it and recurse into each non-null `StringArray`
element. -/
def markObject (h : Heap) : Nat → Finset Nat → Nat → Finset Nat
  | 0, marked, _ => marked
  | fuel + 1, marked, i =>
    match lookupObject h i with
    | none => marked
    | some o =>
      if i ∈ marked then marked
      else (childIds o).foldl (markObject h fuel) (insert i marked)

def idsOf (h : Heap) : List Nat := h.map (·.id)

structure GCHeap where
  /-- The all-objects list; the head is `first_object`. -/
  objects : Heap
  /-- The ids whose header currently has `is_marked = true`. -/
  marks : Finset Nat
  /-- `root_objects`. -/
  roots : List Nat

/-- `GarbageCollector::mark` (src/runtime/src/garbage_collector.rs:50-54):
run `mark_object` on every root in order. -/
def GCHeap.mark (gc : GCHeap) : Finset Nat :=
  gc.roots.foldl (markObject gc.objects (gc.objects.length + 1)) gc.marks

/-- `GarbageCollector::sweep` (src/runtime/src/garbage_collector.rs:93-119):
walk the all-objects list front to back; marked objects stay (their bit
is cleared), unmarked ones are unlinked and freed.  Returns the new list
together with the freed ids in free order. -/
def sweepObjects (marked : Finset Nat) : Heap → Heap × List Nat
  | [] => ([], [])
  | o :: rest =>
    let (kept, freed) := sweepObjects marked rest
    if o.id ∈ marked then (o :: kept, freed) else (kept, o.id :: freed)

/-- `GarbageCollector::collect` (src/runtime/src/garbage_collector.rs:83-87):
mark then sweep (the threshold update touches only the byte accounting,
modelled separately below). -/
def GCHeap.collect (gc : GCHeap) : GCHeap × List Nat :=
  let m := gc.mark
  ({ gc with objects := (sweepObjects m gc.objects).1, marks := ∅ },
   (sweepObjects m gc.objects).2)

/-- Reachability exactly as the specification describes it: an object is
reachable when it is a registered root, or when it is a non-null element
in one of the `[0, length)` slots of a reachable `StringArray`. -/
inductive Reachable (h : Heap) (roots : List Nat) : Nat → Prop
  | root {i : Nat} : i ∈ roots → Reachable h roots i
  | child {j c : Nat} {o : HeapObject} : Reachable h roots j →
      lookupObject h j = some o → c ∈ childIds o → Reachable h roots c

/-- Well-formedness of a collector state as the runtime maintains it
between collections: object addresses are distinct, every mark bit is
clear, and every root and every non-null string-array element points to
an object on the all-objects list (the source dereferences these
pointers, so a dangling one would already be undefined behaviour). -/
def GCHeap.wf (gc : GCHeap) : Prop :=
  (idsOf gc.objects).Nodup ∧
  gc.marks = ∅ ∧
  (∀ r ∈ gc.roots, r ∈ idsOf gc.objects) ∧
  (∀ o ∈ gc.objects, ∀ c ∈ childIds o, c ∈ idsOf gc.objects)

instance (gc : GCHeap) : Decidable gc.wf := by
  unfold GCHeap.wf; exact inferInstance

/-! ## Byte accounting (`total_bytes_allocated`)

`allocate_array` (src/runtime/src/garbage_collector.rs:286-350) adds
`size_of<ArrayType> + capacity * size_of<ElementType>` on allocation;
`free_object` (ibid. 128-175) subtracts the header field `object_size`
(which `allocate_array` sets to the array-struct size alone) and
`free_array_elements` (ibid. 177-192) subtracts
`capacity * element_size` for a non-null, non-empty buffer — at the
capacity current *at free time*.  `IntArrayObject::resize` never touches
the counter.  The model below instantiates the collector at int arrays
(which have no outgoing references, so marking reduces to the root set);
on the 64-bit target `size_of::<IntArrayObject>() = 56` and
`size_of::<NaviaryInt>() = 8`. -/

def INT_ARRAY_OBJECT_SIZE : Nat := 56
def INT_ELEM_SIZE : Nat := 8

structure AcctObject where
  id : Nat
  arr : IntArrayObject
deriving Repr, DecidableEq

/-- The bytes `free_array_elements` releases for this array's buffer. -/
def elemBytes (a : IntArrayObject) : Nat :=
  if a.elements.isSome then
    if 0 < a.capacity then a.capacity * INT_ELEM_SIZE else 0
  else 0

structure AcctGC where
  objects : List AcctObject
  totalBytesAllocated : Nat
  garbageCollectionThreshold : Nat
  roots : List Nat
deriving Repr, DecidableEq

/-- `GarbageCollector::new` (src/runtime/src/garbage_collector.rs:19-27). -/
def AcctGC.new : AcctGC :=
  { objects := []
    totalBytesAllocated := 0
    garbageCollectionThreshold := 1024 * 1024
    roots := [] }

/-- `GarbageCollector::should_collect`
(src/runtime/src/garbage_collector.rs:89-91). -/
def AcctGC.shouldCollect (gc : AcctGC) (size : Nat) : Bool :=
  gc.garbageCollectionThreshold ≤ gc.totalBytesAllocated + size

/-- `collect` on an int-array-only heap: int arrays have no outgoing
references, so exactly the rooted objects survive the sweep; each freed
object releases `object_size + capacity * element_size` bytes, and the
threshold is re-adapted. -/
def AcctGC.collect (gc : AcctGC) : AcctGC :=
  let kept := gc.objects.filter (fun o => gc.roots.contains o.id)
  let freedBytes :=
    (gc.objects.filter (fun o => !(gc.roots.contains o.id))).foldl
      (fun s o => s + INT_ARRAY_OBJECT_SIZE + elemBytes o.arr) 0
  let newTotal := gc.totalBytesAllocated - freedBytes
  { gc with
    objects := kept
    totalBytesAllocated := newTotal
    garbageCollectionThreshold := max (newTotal * 2) 1024 }

/-- `GarbageCollector::allocate_int_array` via `allocate_array`
(src/runtime/src/garbage_collector.rs:231-242, 286-350): maybe collect,
then prepend a fresh zero-length array (at address `newId`) and add the
full size to `total_bytes_allocated`. -/
def AcctGC.allocateIntArray (gc : AcctGC) (newId capacity : Nat) :
    AcctGC × AcctObject :=
  let totalSize := INT_ARRAY_OBJECT_SIZE + capacity * INT_ELEM_SIZE
  let gc := if gc.shouldCollect totalSize then gc.collect else gc
  let obj : AcctObject := ⟨newId, allocateIntArrayObject capacity⟩
  ({ gc with
     objects := obj :: gc.objects
     totalBytesAllocated := gc.totalBytesAllocated + totalSize },
   obj)

/-- `IntArrayObject::push` applied to the object at address `i`: the
object grows in place and — since `resize` has no access to the
collector — `total_bytes_allocated` is left untouched.  (In well-formed
states `push` cannot panic; `getD` keeps the model total.) -/
def AcctGC.pushInt (gc : AcctGC) (i : Nat) (v : NaviaryInt) : AcctGC :=
  { gc with
    objects := gc.objects.map fun o =>
      if o.id = i then { o with arr := (o.arr.push v).getD o.arr } else o }

/-- The accounting invariant claimed by the specification:
`total_bytes_allocated` equals the summed block size plus element-buffer
size of the objects currently on the all-objects list. -/
def AcctGC.invariant (gc : AcctGC) : Prop :=
  gc.totalBytesAllocated =
    (gc.objects.map (fun o => INT_ARRAY_OBJECT_SIZE + elemBytes o.arr)).sum

instance (gc : AcctGC) : Decidable gc.invariant := by
  unfold AcctGC.invariant; exact inferInstance

/-! ## AST (`src/compiler/src/ast/mod.rs`)

`Type` is a Lean keyword, so the source's `Type` enum is named `Ty`;
the `f64` payload of a float literal is carried as its bit pattern (the
checker never reads it), keywords (`let`, `return`, `if`, `for`, `end`)
are suffixed or renamed. -/

inductive Ty
  | int | float | string | bool
deriving DecidableEq, Repr

inductive BinaryOp
  | add | subtract | multiply | divide
  | equal | notEqual | lessThan | greaterThan | lessThanEqual
  | greaterThanEqual
deriving DecidableEq, Repr

inductive Expression
  | number (value : Int)
  | floatLit (bits : Nat)
  | stringLit (value : String)
  | boolLit (value : Bool)
  | ident (name : String)
  | binary (left : Expression) (op : BinaryOp) (right : Expression)
  | call (name : String) (args : List Expression)

mutual
inductive Statement
  | letStmt (name : String) (ty : Option Ty) (value : Expression)
      (mutable : Bool)
  | assignment (name : String) (value : Expression)
  | expression (value : Expression)
  | ret (value : Option Expression)
  | ifStmt (condition : Expression) (thenBlock : Block)
      (elseBlock : Option Block)
  | forStmt (var : String) (start : Expression) (stop : Expression)
      (inclusive : Bool) (body : Block)
inductive Block
  | mk (statements : List Statement)
end

structure Parameter where
  name : String
  ty : Ty

structure Function where
  name : String
  params : List Parameter
  returnType : Option Ty
  body : Block

structure Program where
  functions : List Function

/-! ## Type checker (`src/src/typechecker/mod.rs`)

`HashMap<String, _>` becomes an association list (all uses guard
insertion behind a `contains_key` check, so keys stay unique); the scope
stack keeps the innermost scope at the head (Rust pushes and pops at the
`Vec`'s end and iterates `.rev()`).  `anyhow` errors are strings; the
exact `format!` interpolations are abbreviated, which affects no
theorem. -/

inductive BuiltinFunction
  | print
deriving DecidableEq, Repr

inductive FunctionKind
  | regular (paramTypes : List Ty) (returnType : Option Ty)
  | builtin (f : BuiltinFunction)
deriving DecidableEq, Repr

structure TypeInfo where
  ty : Ty
  isMutable : Bool
  functionKind : Option FunctionKind
deriving DecidableEq, Repr

abbrev Env := List (String × TypeInfo)

def assocContains (m : Env) (name : String) : Bool :=
  m.any (fun p => p.1 == name)

def assocGet (m : Env) (name : String) : Option TypeInfo :=
  (m.find? (fun p => p.1 == name)).map (·.2)

def assocInsert (m : Env) (name : String) (info : TypeInfo) : Env :=
  (name, info) :: m

structure TypeChecker where
  functions : Env
  scopes : List Env
  currentFunctionReturnType : Option Ty

namespace TypeChecker

/-- `TypeChecker::new` together with `register_builtin_functions`
(src/src/typechecker/mod.rs:36-61): `print` is pre-registered as the
builtin with a placeholder `ty` of `Int`. -/
def new : TypeChecker :=
  { functions :=
      [("print",
        { ty := Ty.int, isMutable := false
          functionKind := some (.builtin .print) })]
    scopes := []
    currentFunctionReturnType := none }

def pushScope (tc : TypeChecker) : TypeChecker :=
  { tc with scopes := [] :: tc.scopes }

def popScope (tc : TypeChecker) : TypeChecker :=
  { tc with scopes := tc.scopes.tail }

/-- `TypeChecker::declare_variable` (src/src/typechecker/mod.rs:74-94). -/
def declareVariable (tc : TypeChecker) (name : String) (ty : Ty)
    (isMutable : Bool) : Except String TypeChecker :=
  match tc.scopes with
  | [] => .error "No active scope"
  | scope :: rest =>
    if assocContains scope name then
      .error ("Variable already declared in this scope: " ++ name)
    else
      .ok { tc with
        scopes := assocInsert scope name
          { ty := ty, isMutable := isMutable, functionKind := none } :: rest }

def findInScopes : List Env → String → Option TypeInfo
  | [], _ => none
  | scope :: rest, name =>
    match assocGet scope name with
    | some info => some info
    | none => findInScopes rest name

/-- `TypeChecker::lookup` (src/src/typechecker/mod.rs:97-111): innermost
scope first, then the global function table. -/
def lookup (tc : TypeChecker) (name : String) : Except String TypeInfo :=
  match findInScopes tc.scopes name with
  | some info => .ok info
  | none =>
    match assocGet tc.functions name with
    | some info => .ok info
    | none => .error ("Undefined variable or function: " ++ name)

end TypeChecker

mutual

/-- `TypeChecker::infer_expression_type` (src/src/typechecker/mod.rs:377-498). -/
def inferExpressionType (tc : TypeChecker) : Expression → Except String Ty
  | .number _ => .ok Ty.int
  | .floatLit _ => .ok Ty.float
  | .stringLit _ => .ok Ty.string
  | .boolLit _ => .ok Ty.bool
  | .ident name => do
      let info ← tc.lookup name
      if info.functionKind.isSome then
        .error ("Cannot use function as a value: " ++ name)
      else .ok info.ty
  | .binary left op right => do
      let leftType ← inferExpressionType tc left
      let rightType ← inferExpressionType tc right
      match op with
      | .add | .subtract | .multiply | .divide =>
          if leftType ≠ rightType then
            .error "Type mismatch in binary operation"
          else
            match leftType with
            | .int | .float => .ok leftType
            | _ => .error "Invalid types for arithmetic operation"
      | .equal | .notEqual =>
          if leftType ≠ rightType then
            .error "Cannot compare different types"
          else .ok Ty.bool
      | .lessThan | .greaterThan | .lessThanEqual | .greaterThanEqual =>
          if leftType ≠ rightType then
            .error "Cannot compare different types"
          else
            match leftType with
            | .int | .float => .ok Ty.bool
            | _ => .error "Invalid types for comparison operation"
  | .call name args => do
      let info ← tc.lookup name
      match info.functionKind with
      | some (.builtin .print) =>
          .error "Void function print cannot be used as a value"
      | some (.regular paramTypes returnType) =>
          if args.length ≠ paramTypes.length then
            .error ("Wrong number of arguments to function: " ++ name)
          else do
            checkCallArgs tc args paramTypes
            match returnType with
            | some t => .ok t
            | none =>
                .error ("Void function cannot be used as a value: " ++ name)
      | none => .error ("Not a function: " ++ name)

/-- The argument loop of the two `Call` cases: infer each argument in
order and compare it with the positional parameter type
(src/src/typechecker/mod.rs:353-364 and 477-488). -/
def checkCallArgs (tc : TypeChecker) :
    List Expression → List Ty → Except String Unit
  | [], _ => .ok ()
  | _, [] => .ok ()
  | arg :: args, t :: ts => do
      let argType ← inferExpressionType tc arg
      if argType ≠ t then .error "Type mismatch in argument"
      else checkCallArgs tc args ts

/-- The `print` argument loop (src/src/typechecker/mod.rs:331-337): every
argument is inferred and must be of a printable type; since the embedded
`Ty` has exactly the four printable scalars, the source's non-printable
arm is unrepresentable here. -/
def checkPrintArgs (tc : TypeChecker) :
    List Expression → Except String Unit
  | [] => .ok ()
  | arg :: args => do
      let argType ← inferExpressionType tc arg
      match argType with
      | .int | .float | .string | .bool => checkPrintArgs tc args

end

/-- `TypeChecker::check_expression_statement`
(src/src/typechecker/mod.rs:318-375). -/
def checkExpressionStatement (tc : TypeChecker) (e : Expression) :
    Except String Unit :=
  match e with
  | .call name args => do
      let info ← tc.lookup name
      match info.functionKind with
      | some (.builtin .print) =>
          if args.isEmpty then
            .error "print expects at least 1 argument"
          else checkPrintArgs tc args
      | some (.regular paramTypes _) =>
          if args.length ≠ paramTypes.length then
            .error ("Wrong number of arguments to function: " ++ name)
          else checkCallArgs tc args paramTypes
      | none => .error ("Not a function: " ++ name)
  | e => do
      let _ ← inferExpressionType tc e
      .ok ()

mutual

/-- `TypeChecker::check_statement` (src/src/typechecker/mod.rs:185-315).
Note the `Expression` arm: the source writes
`let _ = self.check_expression_statement(expr);`, discarding the
`Result`, and the `If` arm checks both blocks with no `push_scope`. -/
def checkStatement (tc : TypeChecker) : Statement → Except String TypeChecker
  | .letStmt name ty value mutable => do
      let valueType ← inferExpressionType tc value
      let varType ←
        match ty with
        | some declaredType =>
            if declaredType ≠ valueType then
              (.error "Type mismatch in let declaration" :
                Except String Ty)
            else .ok declaredType
        | none => .ok valueType
      tc.declareVariable name varType mutable
  | .assignment name value => do
      let info ← tc.lookup name
      if info.functionKind.isSome then
        .error ("Cannot assign to function: " ++ name)
      else if !info.isMutable then
        .error ("Cannot assign to immutable variable: " ++ name)
      else do
        let valueType ← inferExpressionType tc value
        if valueType ≠ info.ty then .error "Type mismatch in assignment"
        else .ok tc
  | .ret value => do
      let returnType ←
        match value with
        | some e => do
            let t ← inferExpressionType tc e
            .ok (some t)
        | none => (.ok none : Except String (Option Ty))
      if returnType ≠ tc.currentFunctionReturnType then
        .error "Return type mismatch"
      else .ok tc
  | .expression e =>
      -- the Result of check_expression_statement is discarded
      let _ := checkExpressionStatement tc e
      .ok tc
  | .ifStmt condition thenBlock elseBlock => do
      let conditionType ← inferExpressionType tc condition
      if conditionType ≠ Ty.bool then .error "If condition must be bool"
      else do
        let tc ← checkBlock tc thenBlock
        match elseBlock with
        | some elseB => checkBlock tc elseB
        | none => .ok tc
  | .forStmt var start stop _inclusive body => do
      let startType ← inferExpressionType tc start
      let stopType ← inferExpressionType tc stop
      if startType ≠ stopType then
        .error "Start and end of for loop must have the same type"
      else
        match startType with
        | .int => do
            let tc := tc.pushScope
            let tc ← tc.declareVariable var Ty.int false
            let tc ← checkBlock tc body
            .ok tc.popScope
        | _ => .error "For loop range must be numeric type"

/-- `TypeChecker::check_block` (src/src/typechecker/mod.rs:178-183). -/
def checkBlock (tc : TypeChecker) : Block → Except String TypeChecker
  | .mk statements => checkStatements tc statements

def checkStatements (tc : TypeChecker) :
    List Statement → Except String TypeChecker
  | [] => .ok tc
  | stmt :: rest => do
      let tc ← checkStatement tc stmt
      checkStatements tc rest

end

/-- `TypeChecker::register_function` (src/src/typechecker/mod.rs:134-152). -/
def registerFunction (tc : TypeChecker) (func : Function) :
    Except String TypeChecker :=
  let paramTypes := func.params.map (·.ty)
  let info : TypeInfo :=
    { ty := func.returnType.getD Ty.int
      isMutable := false
      functionKind := some (.regular paramTypes func.returnType) }
  if assocContains tc.functions func.name then
    .error ("Function already defined: " ++ func.name)
  else .ok { tc with functions := assocInsert tc.functions func.name info }

def declareParams (tc : TypeChecker) :
    List Parameter → Except String TypeChecker
  | [] => .ok tc
  | p :: rest => do
      let tc ← tc.declareVariable p.name p.ty false
      declareParams tc rest

/-- `TypeChecker::check_function` (src/src/typechecker/mod.rs:154-176). -/
def checkFunction (tc : TypeChecker) (func : Function) :
    Except String TypeChecker := do
  let tc := tc.pushScope
  let tc := { tc with currentFunctionReturnType := func.returnType }
  let tc ← declareParams tc func.params
  let tc ← checkBlock tc func.body
  .ok tc.popScope

def registerFunctions (tc : TypeChecker) :
    List Function → Except String TypeChecker
  | [] => .ok tc
  | f :: fs => do
      let tc ← registerFunction tc f
      registerFunctions tc fs

def checkFunctions (tc : TypeChecker) :
    List Function → Except String TypeChecker
  | [] => .ok tc
  | f :: fs => do
      let tc ← checkFunction tc f
      checkFunctions tc fs

/-- `TypeChecker::check_program` (src/src/typechecker/mod.rs:115-132):
register every signature, check every body, then require `main`. -/
def checkProgram (program : Program) : Except String Unit := do
  let tc := TypeChecker.new
  let tc ← registerFunctions tc program.functions
  let tc ← checkFunctions tc program.functions
  if assocContains tc.functions "main" then .ok ()
  else .error "No main function found"

/-- `true` iff the checker accepted. -/
def isOkResult : Except String α → Bool
  | .ok _ => true
  | .error _ => false

/-! # Theorems -/

/-! ## C2 — root registration is asymmetric -/

/-- C2: the claim says roots are keyed by the header pointer itself, so
`add_root(p)` followed by `remove_root(p)` restores the prior root set.
The code violates this: `add_root` registers the pointer unshifted while
`remove_root` subtracts one header size (32 bytes) before matching, so
after `add_root(4096); remove_root(4096)` the root 4096 is still
registered (the call would instead delete an entry at 4064).  The
specification explicitly calls this divergence a source bug. -/
theorem removeRoot_misses_root_added_at_same_pointer :
    addRoot [] 4096 = [4096] ∧
    removeRoot (addRoot [] 4096) 4096 = [4096] ∧
    ([4096] : List Nat) ≠ [] ∧
    removeRoot [4096 - HEADER_SIZE] 4096 = [] := by
  decide

/-! ## C3 — the C-ABI store breaks `length ≤ capacity` -/

/-- The array `naviary_allocate_int_array(gc, 0)` hands to generated
code: length 0, capacity 0, null buffer. -/
def c3Array : IntArrayObject := allocateIntArrayObject 0

/-- C3: the claim says `0 ≤ length ≤ capacity` holds after every array
operation including `naviary_array_set_<T>`.  The code violates it:
`naviary_array_set_int(a, 0, 5)` on a capacity-0 array sets
`length = index + 1 = 1` with no capacity check (and the subsequent
in-"bounds" store writes past the buffer), leaving `length = 1 >
capacity = 0`. -/
theorem naviaryArraySet_breaks_length_le_capacity :
    naviaryArraySet c3Array 0 5 =
      some { length := 1, capacity := 0, elements := some [] } ∧
    ¬ ({ length := 1, capacity := 0, elements := some [] }
        : IntArrayObject).wf := by
  decide

/-! ## C6 — `total_bytes_allocated` ignores buffer growth -/

/-- A fresh collector after `naviary_allocate_int_array(gc, 0)`: one
int array at address 100, 56 bytes accounted. -/
def c6AfterAlloc : AcctGC := (AcctGC.new.allocateIntArray 100 0).1

/-- The same heap after one `push`: the buffer grew to capacity 4
(32 bytes), the counter did not move. -/
def c6AfterPush : AcctGC := c6AfterAlloc.pushInt 100 7

/-- C6: the claim says `total_bytes_allocated` equals the summed object
plus element-buffer sizes after any sequence of allocations, growths and
collections.  The code violates it on growth: `IntArrayObject::resize`
reallocates the buffer without touching the counter, so after
allocating a capacity-0 array (56 bytes accounted) and pushing once
(buffer now 4 × 8 bytes) the counter still reads 56 while the live
bytes are 88 — and a later `free_array_elements` would subtract the
grown 32 bytes it never added. -/
theorem totalBytes_not_updated_on_growth :
    c6AfterAlloc.invariant ∧
    c6AfterPush.totalBytesAllocated = 56 ∧
    (c6AfterPush.objects.map
      (fun o => INT_ARRAY_OBJECT_SIZE + elemBytes o.arr)).sum = 88 ∧
    ¬ c6AfterPush.invariant := by
  decide

/-! ## C4 — expression-statement type errors are swallowed -/

/-- The program `func main() { print(); }`: the expression statement is
ill-typed (`print` requires at least one argument). -/
def prog4 : Program :=
  ⟨[⟨"main", [], none, .mk [.expression (.call "print" [])]⟩]⟩

/-- The checker state in effect when `main`'s body reaches the
expression statement: both signatures registered, one fresh scope
pushed, return type `None`. -/
def tc4 : TypeChecker :=
  match registerFunctions TypeChecker.new prog4.functions with
  | .ok tc => ({ tc with currentFunctionReturnType := none }).pushScope
  | .error _ => TypeChecker.new

/-- C4: the claim says a type error inside an expression statement makes
`check_program` fail.  The code violates it: `check_statement` writes
`let _ = self.check_expression_statement(expr);`, discarding the
`Result`, so `func main() \x7b print(); \x7d` — whose expression
statement itself reports "print expects at least 1 argument" — passes
the whole check. -/
theorem expression_statement_type_error_not_fatal :
    checkExpressionStatement tc4 (.call "print" []) =
      .error "print expects at least 1 argument" ∧
    checkProgram prog4 = .ok () := by
  constructor <;> rfl

/-! ## C5 — if-branches are not checked in fresh scopes -/

/-- `func main() \x7b if true \x7b let x = 1; \x7d let x = 2; \x7d`:
under branch-local scoping the two `let x` declarations cannot
collide. -/
def prog5 : Program :=
  ⟨[⟨"main", [], none, .mk
    [.ifStmt (.boolLit true)
      (.mk [.letStmt "x" none (.number 1) false]) none,
     .letStmt "x" none (.number 2) false]⟩]⟩

/-- `func main() \x7b if true \x7b let mut x = 1; \x7d x = 2; \x7d`:
under branch-local scoping `x` is gone after the `if`, so the
assignment must fail to resolve. -/
def prog5b : Program :=
  ⟨[⟨"main", [], none, .mk
    [.ifStmt (.boolLit true)
      (.mk [.letStmt "x" none (.number 1) true]) none,
     .assignment "x" (.number 2)]⟩]⟩

/-- C5: the claim says both branches of an `if` are checked in fresh
nested scopes, so a branch-local `let` neither collides with a later
declaration nor stays visible.  The code violates it: the `If` arm of
`check_statement` calls `check_block` on both branches without
`push_scope` / `pop_scope` (unlike the `For` arm), so the branch's
`let x` lands in the enclosing scope: `prog5` is rejected with a
duplicate-declaration error and `prog5b`'s assignment to the
supposedly-dead `x` checks fine. -/
theorem if_branch_let_leaks_into_enclosing_scope :
    checkProgram prog5 =
      .error "Variable already declared in this scope: x" ∧
    checkProgram prog5b = .ok () := by
  constructor <;> rfl

/-! ## Helper lemmas for the array operations -/

/-- Reading inside the preserved prefix of a reallocated buffer. -/
theorem get?_take_append_replicate {α : Type} (l : List α) (u : α)
    (cap extra k : Nat) (hl : l.length = cap) (hk : k < cap) :
    (l.take cap ++ List.replicate extra u).get? k = l.get? k := by
  subst hl
  rw [List.take_length]
  exact List.get?_append hk

theorem growCapacity_lt (c : Nat) : c < ArrayObject.growCapacity c := by
  unfold ArrayObject.growCapacity
  split
  · omega
  · split <;> omega

/-- What `resize` does on the three primitive array types when not
shrinking: capacity becomes `n`, length is untouched, the populated
prefix survives the reallocation. -/
theorem primResize_spec {α : Type} (uninit : α) (a : ArrayObject α)
    (n : Nat) (hwf : a.wf) (hn : a.capacity ≤ n) :
    ∃ a', ArrayObject.primResize uninit a n = some a' ∧
      a'.capacity = n ∧ a'.length = a.length ∧ a'.buf.length = n ∧
      ∀ i < a.length, a'.buf.get? i = a.buf.get? i := by
  unfold ArrayObject.primResize
  rw [if_neg (by omega)]
  by_cases heq : n = a.capacity
  · rw [if_pos heq]
    exact ⟨a, rfl, heq.symm, rfl, heq ▸ hwf.2, fun i _ => rfl⟩
  · rw [if_neg heq]
    refine ⟨_, rfl, rfl, rfl, ?_, fun i hi => ?_⟩
    · have h2 : a.buf.length = a.capacity := hwf.2
      simp only [ArrayObject.buf, Option.getD_some, List.length_append,
        List.length_take, List.length_replicate]
      simp only [ArrayObject.buf] at h2
      omega
    · simp only [ArrayObject.buf, Option.getD_some]
      exact get?_take_append_replicate a.buf uninit a.capacity
        (n - a.capacity) i hwf.2 (lt_of_lt_of_le hi hwf.1)

/-- What `StringArrayObject::resize` does whenever its (weaker) guard
passes, i.e. for any `n ≥ length`: capacity becomes `n`, length is
untouched, the populated prefix survives. -/
theorem stringResize_spec {α : Type} (a : ArrayObject α) (uninit : α)
    (n : Nat) (hwf : a.wf) (hn : a.length ≤ n) :
    ∃ a', ArrayObject.stringResize a uninit n = some a' ∧
      a'.capacity = n ∧ a'.length = a.length ∧ a'.buf.length = n ∧
      ∀ i < a.length, a'.buf.get? i = a.buf.get? i := by
  unfold ArrayObject.stringResize
  rw [if_neg (by omega)]
  by_cases heq : n = a.capacity
  · rw [if_pos heq]
    exact ⟨a, rfl, heq.symm, rfl, heq ▸ hwf.2, fun i _ => rfl⟩
  · rw [if_neg heq]
    refine ⟨_, rfl, rfl, rfl, ?_, fun i hi => ?_⟩
    · have h2 : a.buf.length = a.capacity := hwf.2
      simp only [ArrayObject.buf] at h2
      by_cases hgt : n > a.capacity
      · rw [if_pos hgt]
        simp only [ArrayObject.buf, Option.getD_some, List.length_append,
          List.length_take, List.length_replicate]
        omega
      · rw [if_neg hgt]
        simp only [ArrayObject.buf, Option.getD_some, List.length_take]
        omega
    · simp only [ArrayObject.buf, Option.getD_some]
      by_cases hgt : n > a.capacity
      · rw [if_pos hgt]
        exact get?_take_append_replicate a.buf uninit a.capacity
          (n - a.capacity) i hwf.2 (lt_of_lt_of_le hi hwf.1)
      · rw [if_neg hgt]
        exact List.get?_take (lt_of_lt_of_le hi hn)

/-- Common shape of the four `push` implementations once the growth
trigger fired. -/
theorem push_after_grow {α : Type} (a a'' : ArrayObject α) (v : α)
    (hlen : a''.length = a.length)
    (hcap : a.length < a''.capacity)
    (hbuflen : a''.buf.length = a''.capacity)
    (hpres : ∀ i < a.length, a''.buf.get? i = a.buf.get? i) :
    let a' : ArrayObject α :=
      { a'' with
        elements := some (a''.buf.set a''.length v)
        length := a''.length + 1 }
    a'.length = a.length + 1 ∧ a'.buf.get? a.length = some v ∧
      ∀ i < a.length, a'.buf.get? i = a.buf.get? i := by
  intro a'
  refine ⟨by simp [a', hlen], ?_, fun i hi => ?_⟩
  · show (a''.buf.set a''.length v).get? a.length = some v
    rw [← hlen]
    exact List.get?_set_eq_of_lt v (by rw [hbuflen, hlen]; omega)
  · show (a''.buf.set a''.length v).get? i = a.buf.get? i
    rw [List.get?_set_ne v _ (by omega : a''.length ≠ i)]
    exact hpres i hi

/-- `push` on the primitive array types under the growth trigger. -/
theorem primPush_spec {α : Type} (uninit : α) (a : ArrayObject α) (v : α)
    (hwf : a.wf) (htrig : a.capacity ≤ a.length + 1) :
    ∃ a', ArrayObject.primPush uninit a v = some a' ∧
      a'.capacity = ArrayObject.growCapacity a.capacity ∧
      a'.length = a.length + 1 ∧
      a'.buf.get? a.length = some v ∧
      ∀ i < a.length, a'.buf.get? i = a.buf.get? i := by
  obtain ⟨a'', he, hc, hl, hbl, hp⟩ :=
    primResize_spec uninit a (ArrayObject.growCapacity a.capacity) hwf
      (le_of_lt (growCapacity_lt _))
  have hlt : a.length < a''.capacity :=
    lt_of_le_of_lt hwf.1 (hc ▸ growCapacity_lt _)
  have := push_after_grow a a'' v hl hlt (hbl.trans hc.symm) hp
  refine ⟨_, ?_, ?_, this.1, this.2.1, this.2.2⟩
  · unfold ArrayObject.primPush ArrayObject.primGrow
    rw [if_pos (by omega), he]
    rfl
  · exact hc

/-- `push` on string arrays under the growth trigger. -/
theorem stringPush_spec (a : StringArrayObject) (v : StringRef)
    (hwf : a.wf) (htrig : a.capacity ≤ a.length + 1) :
    ∃ a', StringArrayObject.push a v = some a' ∧
      a'.capacity = ArrayObject.growCapacity a.capacity ∧
      a'.length = a.length + 1 ∧
      a'.buf.get? a.length = some v ∧
      ∀ i < a.length, a'.buf.get? i = a.buf.get? i := by
  obtain ⟨a'', he, hc, hl, hbl, hp⟩ :=
    stringResize_spec a stringZero (ArrayObject.growCapacity a.capacity) hwf
      (le_of_lt (lt_of_le_of_lt hwf.1 (growCapacity_lt _)))
  have hlt : a.length < a''.capacity :=
    lt_of_le_of_lt hwf.1 (hc ▸ growCapacity_lt _)
  have := push_after_grow a a'' v hl hlt (hbl.trans hc.symm) hp
  refine ⟨_, ?_, ?_, this.1, this.2.1, this.2.2⟩
  · unfold StringArrayObject.push StringArrayObject.grow
      StringArrayObject.resize
    rw [if_pos (by omega), he]
    rfl
  · exact hc

/-! ## C7 — the growth policy -/

/-- A well-formed int array with capacity 1: `length = 0`, one zeroed
slot. -/
def c7Array : IntArrayObject := { length := 0, capacity := 1, elements := some [0] }

/-- C7 counterexample: on `c7Array`, `push` triggers growth
(`capacity = 1 ≤ length + 1 = 1` and `capacity < 1024`), yet the new
capacity is `capacity * 2 = 2`, not the claimed `max(4, capacity × 2)
= 4`: the `max` with 4 only applies at capacity 0. -/
theorem push_growth_at_capacity_one_doubles_to_two :
    c7Array.capacity ≤ c7Array.length + 1 ∧
    c7Array.capacity < 1024 ∧
    IntArrayObject.push c7Array 7 =
      some { length := 1, capacity := 2, elements := some [7, 0] } ∧
    max 4 (c7Array.capacity * 2) = 4 ∧ (2 : Nat) ≠ 4 := by
  decide

/-- C7 (amended): when `push` triggers growth (`capacity ≤ length + 1`),
the new capacity is 4 for a zero-capacity array, `capacity × 2` while
`0 < capacity < 1024`, and `capacity + capacity / 2` above; growth never
shrinks, the length goes up by one, and the elements `[0, length)` are
preserved.  (This equals the claimed `max(4, capacity × 2)` everywhere
except `capacity = 1`.)  Holds for all four element types: the first
conjunct instantiates to the int / float / bool implementations, the
second is the string implementation. -/
theorem push_growth_policy :
    (∀ (α : Type) (uninit : α) (a : ArrayObject α) (v : α),
      a.wf → a.capacity ≤ a.length + 1 →
      ∃ a', ArrayObject.primPush uninit a v = some a' ∧
        a'.capacity =
          (if a.capacity = 0 then 4
           else if a.capacity < 1024 then a.capacity * 2
           else a.capacity + a.capacity / 2) ∧
        a.capacity ≤ a'.capacity ∧
        a'.length = a.length + 1 ∧
        ∀ i < a.length, a'.buf.get? i = a.buf.get? i) ∧
    (∀ (a : StringArrayObject) (v : StringRef),
      a.wf → a.capacity ≤ a.length + 1 →
      ∃ a', StringArrayObject.push a v = some a' ∧
        a'.capacity =
          (if a.capacity = 0 then 4
           else if a.capacity < 1024 then a.capacity * 2
           else a.capacity + a.capacity / 2) ∧
        a.capacity ≤ a'.capacity ∧
        a'.length = a.length + 1 ∧
        ∀ i < a.length, a'.buf.get? i = a.buf.get? i) := by
  constructor
  · intro α uninit a v hwf htrig
    obtain ⟨a', he, hc, hl, _, hp⟩ := primPush_spec uninit a v hwf htrig
    exact ⟨a', he, hc,
      hc ▸ le_of_lt (growCapacity_lt a.capacity), hl, hp⟩
  · intro a v hwf htrig
    obtain ⟨a', he, hc, hl, _, hp⟩ := stringPush_spec a v hwf htrig
    exact ⟨a', he, hc,
      hc ▸ le_of_lt (growCapacity_lt a.capacity), hl, hp⟩

/-- Witness for C7: the amended growth policy applied to the concrete
int array `c7Array` and to an empty string array. -/
theorem push_growth_policy_witness :
    (c7Array.wf ∧ c7Array.capacity ≤ c7Array.length + 1 ∧
      (∃ a', ArrayObject.primPush intZero c7Array 7 = some a' ∧
        a'.capacity =
          (if c7Array.capacity = 0 then 4
           else if c7Array.capacity < 1024 then c7Array.capacity * 2
           else c7Array.capacity + c7Array.capacity / 2) ∧
        c7Array.capacity ≤ a'.capacity ∧
        a'.length = c7Array.length + 1 ∧
        ∀ i < c7Array.length, a'.buf.get? i = c7Array.buf.get? i)) ∧
    ((allocateStringArrayObject 0).wf ∧
      (allocateStringArrayObject 0).capacity ≤
        (allocateStringArrayObject 0).length + 1 ∧
      (∃ a', StringArrayObject.push (allocateStringArrayObject 0)
          (some 5) = some a' ∧
        a'.capacity =
          (if (allocateStringArrayObject 0).capacity = 0 then 4
           else if (allocateStringArrayObject 0).capacity < 1024 then
             (allocateStringArrayObject 0).capacity * 2
           else (allocateStringArrayObject 0).capacity +
             (allocateStringArrayObject 0).capacity / 2) ∧
        (allocateStringArrayObject 0).capacity ≤ a'.capacity ∧
        a'.length = (allocateStringArrayObject 0).length + 1 ∧
        ∀ i < (allocateStringArrayObject 0).length,
          a'.buf.get? i = (allocateStringArrayObject 0).buf.get? i)) :=
  ⟨⟨by decide, by decide,
    push_growth_policy.1 NaviaryInt intZero c7Array 7 (by decide) (by decide)⟩,
   ⟨by decide, by decide,
    push_growth_policy.2 (allocateStringArrayObject 0) (some 5)
      (by decide) (by decide)⟩⟩

/-! ## C8 — resize guards -/

/-- A well-formed string array with no live elements and capacity 5. -/
def c8Array : StringArrayObject :=
  { length := 0, capacity := 5, elements := some (List.replicate 5 none) }

/-- C8 counterexample: the claim says `resize(n)` aborts for all four
element types whenever `n` is below the current capacity.
`StringArrayObject::resize` only rejects `n < length`: shrinking
`c8Array` from capacity 5 to 3 succeeds and sets capacity 3. -/
theorem stringResize_shrinks_below_capacity :
    (3 : Nat) < c8Array.capacity ∧
    StringArrayObject.resize c8Array 3 =
      some { length := 0, capacity := 3
             elements := some (List.replicate 3 none) } ∧
    StringArrayObject.resize c8Array 3 ≠ none := by
  decide

/-- C8 (amended): for the int / float / bool arrays `resize(n)` fails
exactly when `n < capacity`; for string arrays it fails exactly when
`n < length` (so a string array may shrink down to its length).  In
every succeeding case — in particular whenever `n ≥ capacity`, as the
claim's second half states — the contents `[0, length)` are preserved,
the length is unchanged and the capacity becomes `n`. -/
theorem resize_guards_and_preservation :
    (∀ (α : Type) (uninit : α) (a : ArrayObject α) (n : Nat),
      n < a.capacity → ArrayObject.primResize uninit a n = none) ∧
    (∀ (α : Type) (uninit : α) (a : ArrayObject α) (n : Nat),
      a.wf → a.capacity ≤ n →
      ∃ a', ArrayObject.primResize uninit a n = some a' ∧
        a'.capacity = n ∧ a'.length = a.length ∧
        ∀ i < a.length, a'.buf.get? i = a.buf.get? i) ∧
    (∀ (a : StringArrayObject) (n : Nat),
      n < a.length → StringArrayObject.resize a n = none) ∧
    (∀ (a : StringArrayObject) (n : Nat),
      a.wf → a.length ≤ n →
      ∃ a', StringArrayObject.resize a n = some a' ∧
        a'.capacity = n ∧ a'.length = a.length ∧
        ∀ i < a.length, a'.buf.get? i = a.buf.get? i) := by
  refine ⟨?_, ?_, ?_, ?_⟩
  · intro α uninit a n h
    unfold ArrayObject.primResize
    rw [if_pos h]
  · intro α uninit a n hwf hn
    obtain ⟨a', he, hc, hl, _, hp⟩ := primResize_spec uninit a n hwf hn
    exact ⟨a', he, hc, hl, hp⟩
  · intro a n h
    unfold StringArrayObject.resize ArrayObject.stringResize
    rw [if_pos h]
  · intro a n hwf hn
    obtain ⟨a', he, hc, hl, _, hp⟩ := stringResize_spec a stringZero n hwf hn
    exact ⟨a', he, hc, hl, hp⟩

/-- Witness for C8: the four amended clauses at concrete arrays. -/
def c8IntArray : IntArrayObject :=
  { length := 1, capacity := 2, elements := some [7, 0] }

def c8StrArray : StringArrayObject :=
  { length := 1, capacity := 1, elements := some [some 9] }

theorem resize_guards_and_preservation_witness :
    ((1 : Nat) < c8IntArray.capacity ∧
      ArrayObject.primResize intZero c8IntArray 1 = none) ∧
    (c8IntArray.wf ∧ c8IntArray.capacity ≤ 4 ∧
      (∃ a', ArrayObject.primResize intZero c8IntArray 4 = some a' ∧
        a'.capacity = 4 ∧ a'.length = c8IntArray.length ∧
        ∀ i < c8IntArray.length,
          a'.buf.get? i = c8IntArray.buf.get? i)) ∧
    ((0 : Nat) < c8StrArray.length ∧
      StringArrayObject.resize c8StrArray 0 = none) ∧
    (c8StrArray.wf ∧ c8StrArray.length ≤ 3 ∧
      (∃ a', StringArrayObject.resize c8StrArray 3 = some a' ∧
        a'.capacity = 3 ∧ a'.length = c8StrArray.length ∧
        ∀ i < c8StrArray.length,
          a'.buf.get? i = c8StrArray.buf.get? i)) :=
  ⟨⟨by decide,
    resize_guards_and_preservation.1 NaviaryInt intZero c8IntArray 1
      (by decide)⟩,
   ⟨by decide, by decide,
    resize_guards_and_preservation.2.1 NaviaryInt intZero c8IntArray 4
      (by decide) (by decide)⟩,
   ⟨by decide,
    resize_guards_and_preservation.2.2.1 c8StrArray 0 (by decide)⟩,
   ⟨by decide, by decide,
    resize_guards_and_preservation.2.2.2 c8StrArray 3
      (by decide) (by decide)⟩⟩

/-! ## C9 — bounds checks and `pop` -/

/-- The empty array `naviary_allocate_int_array(gc, 0)` returns. -/
def c9Empty : IntArrayObject := allocateIntArrayObject 0

/-- C9 counterexample: the claim says `pop()` on a length-0 array fails
fast rather than returning normally.  The code's `pop` returns
`Option<T>`: on the empty array it returns normally with `None` (the
outer `some` is the never-used panic channel). -/
theorem pop_on_empty_returns_none_normally :
    c9Empty.length = 0 ∧
    ArrayObject.pop c9Empty = some (none, c9Empty) ∧
    ArrayObject.pop c9Empty ≠ none := by
  decide

/-- C9 (amended): `get(i)` and `set(i, v)` bounds-check and abort
whenever `i ≥ length` — in particular `get(0)` on a length-0 array
aborts; `push` has no failing bounds check (it grows instead, C7); and
`pop()` on a length-0 array returns `None` normally instead of
aborting, while on a non-empty well-formed array it returns the last
element and decrements the length.  All statements are generic in the
element type, covering the four identical per-type implementations. -/
theorem bounds_checks_and_pop_behaviour :
    (∀ (α : Type) (a : ArrayObject α) (i : Nat),
      a.length ≤ i → ArrayObject.get a i = none) ∧
    (∀ (α : Type) (a : ArrayObject α) (i : Nat) (v : α),
      a.length ≤ i → ArrayObject.set a i v = none) ∧
    (∀ (α : Type) (a : ArrayObject α),
      a.length = 0 → ArrayObject.get a 0 = none) ∧
    (∀ (α : Type) (a : ArrayObject α),
      a.length = 0 → ArrayObject.pop a = some (none, a)) ∧
    (∀ (α : Type) (a : ArrayObject α), a.wf → 0 < a.length →
      ∃ v, ArrayObject.pop a =
        some (some v, { a with length := a.length - 1 })) := by
  refine ⟨?_, ?_, ?_, ?_, ?_⟩
  · intro α a i h
    unfold ArrayObject.get
    rw [if_pos h]
  · intro α a i v h
    unfold ArrayObject.set
    rw [if_pos h]
  · intro α a h
    unfold ArrayObject.get
    rw [if_pos (by omega)]
  · intro α a h
    unfold ArrayObject.pop
    rw [if_pos h]
  · intro α a hwf h
    have hlt : a.length - 1 < a.buf.length := by
      have := hwf.1
      rw [hwf.2]
      omega
    unfold ArrayObject.pop
    rw [if_neg (by omega), List.get?_eq_get hlt]
    exact ⟨a.buf.get ⟨a.length - 1, hlt⟩, rfl⟩

/-- Witness for C9: the amended clauses at a one-element and at an
empty int array. -/
def c9One : IntArrayObject :=
  { length := 1, capacity := 2, elements := some [5, 0] }

theorem bounds_checks_and_pop_behaviour_witness :
    (c9One.length ≤ 1 ∧ ArrayObject.get c9One 1 = none) ∧
    (c9One.length ≤ 1 ∧ ArrayObject.set c9One 1 9 = none) ∧
    (c9Empty.length = 0 ∧ ArrayObject.get c9Empty 0 = none) ∧
    (c9Empty.length = 0 ∧ ArrayObject.pop c9Empty = some (none, c9Empty)) ∧
    (c9One.wf ∧ 0 < c9One.length ∧
      (∃ v, ArrayObject.pop c9One =
        some (some v, { c9One with length := c9One.length - 1 }))) :=
  ⟨⟨by decide, bounds_checks_and_pop_behaviour.1 NaviaryInt c9One 1 (by decide)⟩,
   ⟨by decide,
    bounds_checks_and_pop_behaviour.2.1 NaviaryInt c9One 1 9 (by decide)⟩,
   ⟨by decide,
    bounds_checks_and_pop_behaviour.2.2.1 NaviaryInt c9Empty (by decide)⟩,
   ⟨by decide,
    bounds_checks_and_pop_behaviour.2.2.2.1 NaviaryInt c9Empty (by decide)⟩,
   ⟨by decide, by decide,
    bounds_checks_and_pop_behaviour.2.2.2.2 NaviaryInt c9One
      (by decide) (by decide)⟩⟩

/-! ## C10 — allocator initialization -/

theorem mkArrayObject_spec {α : Type} (zero : α) (c : Nat) :
    (mkArrayObject zero c).length = 0 ∧
    (mkArrayObject zero c).capacity = c ∧
    (0 < c → (mkArrayObject zero c).elements =
      some (List.replicate c zero)) ∧
    (c = 0 → (mkArrayObject zero c).elements = none) ∧
    (∀ i, ArrayObject.get (mkArrayObject zero c) i = none) := by
  unfold mkArrayObject
  refine ⟨rfl, rfl, fun h => ?_, fun h => ?_, fun i => ?_⟩
  · simp [h]
  · simp [h]
  · unfold ArrayObject.get
    simp

/-- C10: each of the four typed allocators hands back an array object
with `length = 0` and `capacity = c`; for `c > 0` the out-of-band
buffer is allocated and zero-initialized (`ptr::write_bytes 0`, i.e.
int 0 / float bit pattern 0 / `false` / null), for `c = 0` the
`elements` pointer is null — and in either case no index is readable
(`get` aborts on every `i`) until the length has grown. -/
theorem allocate_array_initialization (c : Nat) :
    ((allocateIntArrayObject c).length = 0 ∧
     (allocateIntArrayObject c).capacity = c ∧
     (0 < c → (allocateIntArrayObject c).elements =
       some (List.replicate c intZero)) ∧
     (c = 0 → (allocateIntArrayObject c).elements = none) ∧
     (∀ i, ArrayObject.get (allocateIntArrayObject c) i = none)) ∧
    ((allocateFloatArrayObject c).length = 0 ∧
     (allocateFloatArrayObject c).capacity = c ∧
     (0 < c → (allocateFloatArrayObject c).elements =
       some (List.replicate c floatZero)) ∧
     (c = 0 → (allocateFloatArrayObject c).elements = none) ∧
     (∀ i, ArrayObject.get (allocateFloatArrayObject c) i = none)) ∧
    ((allocateBoolArrayObject c).length = 0 ∧
     (allocateBoolArrayObject c).capacity = c ∧
     (0 < c → (allocateBoolArrayObject c).elements =
       some (List.replicate c boolZero)) ∧
     (c = 0 → (allocateBoolArrayObject c).elements = none) ∧
     (∀ i, ArrayObject.get (allocateBoolArrayObject c) i = none)) ∧
    ((allocateStringArrayObject c).length = 0 ∧
     (allocateStringArrayObject c).capacity = c ∧
     (0 < c → (allocateStringArrayObject c).elements =
       some (List.replicate c stringZero)) ∧
     (c = 0 → (allocateStringArrayObject c).elements = none) ∧
     (∀ i, ArrayObject.get (allocateStringArrayObject c) i = none)) :=
  ⟨mkArrayObject_spec intZero c, mkArrayObject_spec floatZero c,
   mkArrayObject_spec boolZero c, mkArrayObject_spec stringZero c⟩

/-- Witness for C10: the initialization facts instantiated at the
concrete capacities 2 and 0. -/
theorem allocate_array_initialization_witness :
    (((allocateIntArrayObject 2).length = 0 ∧
      (allocateIntArrayObject 2).capacity = 2 ∧
      (0 < 2 → (allocateIntArrayObject 2).elements =
        some (List.replicate 2 intZero)) ∧
      (2 = 0 → (allocateIntArrayObject 2).elements = none) ∧
      (∀ i, ArrayObject.get (allocateIntArrayObject 2) i = none)) ∧
     ((allocateFloatArrayObject 2).length = 0 ∧
      (allocateFloatArrayObject 2).capacity = 2 ∧
      (0 < 2 → (allocateFloatArrayObject 2).elements =
        some (List.replicate 2 floatZero)) ∧
      (2 = 0 → (allocateFloatArrayObject 2).elements = none) ∧
      (∀ i, ArrayObject.get (allocateFloatArrayObject 2) i = none)) ∧
     ((allocateBoolArrayObject 2).length = 0 ∧
      (allocateBoolArrayObject 2).capacity = 2 ∧
      (0 < 2 → (allocateBoolArrayObject 2).elements =
        some (List.replicate 2 boolZero)) ∧
      (2 = 0 → (allocateBoolArrayObject 2).elements = none) ∧
      (∀ i, ArrayObject.get (allocateBoolArrayObject 2) i = none)) ∧
     ((allocateStringArrayObject 2).length = 0 ∧
      (allocateStringArrayObject 2).capacity = 2 ∧
      (0 < 2 → (allocateStringArrayObject 2).elements =
        some (List.replicate 2 stringZero)) ∧
      (2 = 0 → (allocateStringArrayObject 2).elements = none) ∧
      (∀ i, ArrayObject.get (allocateStringArrayObject 2) i = none))) ∧
    (((allocateIntArrayObject 0).length = 0 ∧
      (allocateIntArrayObject 0).capacity = 0 ∧
      (0 < 0 → (allocateIntArrayObject 0).elements =
        some (List.replicate 0 intZero)) ∧
      (0 = 0 → (allocateIntArrayObject 0).elements = none) ∧
      (∀ i, ArrayObject.get (allocateIntArrayObject 0) i = none)) ∧
     ((allocateFloatArrayObject 0).length = 0 ∧
      (allocateFloatArrayObject 0).capacity = 0 ∧
      (0 < 0 → (allocateFloatArrayObject 0).elements =
        some (List.replicate 0 floatZero)) ∧
      (0 = 0 → (allocateFloatArrayObject 0).elements = none) ∧
      (∀ i, ArrayObject.get (allocateFloatArrayObject 0) i = none)) ∧
     ((allocateBoolArrayObject 0).length = 0 ∧
      (allocateBoolArrayObject 0).capacity = 0 ∧
      (0 < 0 → (allocateBoolArrayObject 0).elements =
        some (List.replicate 0 boolZero)) ∧
      (0 = 0 → (allocateBoolArrayObject 0).elements = none) ∧
      (∀ i, ArrayObject.get (allocateBoolArrayObject 0) i = none)) ∧
     ((allocateStringArrayObject 0).length = 0 ∧
      (allocateStringArrayObject 0).capacity = 0 ∧
      (0 < 0 → (allocateStringArrayObject 0).elements =
        some (List.replicate 0 stringZero)) ∧
      (0 = 0 → (allocateStringArrayObject 0).elements = none) ∧
      (∀ i, ArrayObject.get (allocateStringArrayObject 0) i = none))) :=
  ⟨allocate_array_initialization 2, allocate_array_initialization 0⟩

/-! ## C1 — mark-and-sweep reachability

The proof follows the usual depth-first-search argument: `ReachAvoid h m
i j` says `j` is reachable from `i` along objects none of which carries
a mark from `m`; `mark_object` started at `i` with mark set `m` marks
exactly `m` plus that set, provided it has more fuel than there are
unmarked objects (which `collect`'s `objects.length + 1` always is). -/

def unmarkedCard (h : Heap) (m : Finset Nat) : Nat :=
  ((idsOf h).toFinset \ m).card

theorem lookupObject_isSome (h : Heap) (i : Nat) :
    (lookupObject h i).isSome ↔ i ∈ idsOf h := by
  unfold lookupObject idsOf
  rw [List.find?_isSome]
  constructor
  · rintro ⟨o, ho, hid⟩
    exact List.mem_map.mpr ⟨o, ho, by simpa using hid⟩
  · rintro hmem
    obtain ⟨o, ho, hid⟩ := List.mem_map.mp hmem
    exact ⟨o, ho, by simpa using hid⟩

theorem lookupObject_mem {h : Heap} {i : Nat} {o : HeapObject}
    (hl : lookupObject h i = some o) : o ∈ h ∧ o.id = i := by
  refine ⟨List.mem_of_find?_eq_some hl, ?_⟩
  have := List.find?_some hl
  simpa using this

theorem lookupObject_mem_idsOf {h : Heap} {i : Nat} {o : HeapObject}
    (hl : lookupObject h i = some o) : i ∈ idsOf h :=
  (lookupObject_isSome h i).mp (by rw [hl]; rfl)

/-- `j` is reachable from `i` along a path of objects that are all
unmarked (not in `m`); every node on the path, including both ends, is a
valid object of the heap. -/
inductive ReachAvoid (h : Heap) (m : Finset Nat) : Nat → Nat → Prop
  | refl {i : Nat} {o : HeapObject} :
      lookupObject h i = some o → i ∉ m → ReachAvoid h m i i
  | step {i c j : Nat} {o : HeapObject} :
      i ∉ m → lookupObject h i = some o → c ∈ childIds o →
      ReachAvoid h m c j → ReachAvoid h m i j

theorem ReachAvoid.start_not_mem {h : Heap} {m : Finset Nat} {i j : Nat}
    (r : ReachAvoid h m i j) : i ∉ m := by
  cases r with
  | refl _ hm => exact hm
  | step hm _ _ _ => exact hm

theorem ReachAvoid.start_isSome {h : Heap} {m : Finset Nat} {i j : Nat}
    (r : ReachAvoid h m i j) : ∃ o, lookupObject h i = some o := by
  cases r with
  | refl hl _ => exact ⟨_, hl⟩
  | step _ hl _ _ => exact ⟨_, hl⟩

theorem ReachAvoid.end_spec {h : Heap} {m : Finset Nat} {i j : Nat}
    (r : ReachAvoid h m i j) :
    j ∉ m ∧ ∃ o, lookupObject h j = some o := by
  induction r with
  | refl hl hm => exact ⟨hm, _, hl⟩
  | step _ _ _ _ ih => exact ih

/-- Avoiding a larger mark set yields fewer paths. -/
theorem ReachAvoid.anti {h : Heap} {m m' : Finset Nat} (hmm : m ⊆ m')
    {i j : Nat} (r : ReachAvoid h m' i j) : ReachAvoid h m i j := by
  induction r with
  | refl hl hm => exact .refl hl (fun hc => hm (hmm hc))
  | step hm hl hc _ ih => exact .step (fun hx => hm (hmm hx)) hl hc ih

/-- A path may be extended by one unmarked, valid child. -/
theorem ReachAvoid.extend {h : Heap} {m : Finset Nat} {i j c : Nat}
    {o oc : HeapObject} (r : ReachAvoid h m i j)
    (hj : lookupObject h j = some o) (hc : c ∈ childIds o) (hcm : c ∉ m)
    (hcv : lookupObject h c = some oc) : ReachAvoid h m i c := by
  induction r with
  | refl hl hm =>
    rename_i i' o'
    rw [hl] at hj
    cases hj
    exact .step hm hl hc (.refl hcv hcm)
  | step hm hl hch _ ih => exact .step hm hl hch (ih hj)

/-- Absorption: if `S` is closed under unmarked valid children, then any
path avoiding `m` either ends inside `S` or can avoid `m ∪ S`
altogether. -/
theorem ReachAvoid.absorb {h : Heap} {m S : Finset Nat}
    (hS : ∀ x ∈ S, ∀ o, lookupObject h x = some o → ∀ c ∈ childIds o,
      c ∉ m → (lookupObject h c).isSome → c ∈ S) :
    ∀ {b j}, ReachAvoid h m b j → j ∈ S ∨ ReachAvoid h (m ∪ S) b j := by
  intro b j r
  induction r with
  | refl hl hm =>
    rename_i b' o
    by_cases hbS : b' ∈ S
    · exact Or.inl hbS
    · exact Or.inr (.refl hl (by simp [hm, hbS]))
  | step hm hl hch rsub ih =>
    rename_i b' c j' o
    by_cases hbS : b' ∈ S
    · have hcS : c ∈ S := by
        obtain ⟨oc, hoc⟩ := rsub.start_isSome
        exact hS b' hbS o hl c hch rsub.start_not_mem (by rw [hoc]; rfl)
      rcases ih with hjS | hr
      · exact Or.inl hjS
      · exact absurd hr.start_not_mem (by simp [hcS])
    · rcases ih with hjS | hr
      · exact Or.inl hjS
      · exact Or.inr (.step (by simp [hm, hbS]) hl hch hr)

/-- `mark_object` only ever adds marks. -/
theorem markObject_subset (h : Heap) :
    ∀ (fuel : Nat) (m : Finset Nat) (i : Nat), m ⊆ markObject h fuel m i := by
  intro fuel
  induction fuel with
  | zero => intro m i; exact Finset.Subset.refl m
  | succ f ihf =>
    intro m i
    show m ⊆ markObject h (f + 1) m i
    cases hlook : lookupObject h i with
    | none =>
      simp only [markObject, hlook]
      exact Finset.Subset.refl m
    | some o =>
      simp only [markObject, hlook]
      by_cases hm : i ∈ m
      · rw [if_pos hm]
      · rw [if_neg hm]
        have haux : ∀ (cs : List Nat) (acc : Finset Nat),
            acc ⊆ cs.foldl (markObject h f) acc := by
          intro cs
          induction cs with
          | nil => intro acc; exact Finset.Subset.refl acc
          | cons c rest ihc =>
            intro acc
            exact (ihf acc c).trans (ihc (markObject h f acc c))
        exact (Finset.subset_insert i m).trans (haux (childIds o) _)

theorem unmarkedCard_le_of_subset (h : Heap) {m m' : Finset Nat}
    (hmm : m ⊆ m') : unmarkedCard h m' ≤ unmarkedCard h m :=
  Finset.card_le_card
    (Finset.sdiff_subset_sdiff (Finset.Subset.refl _) hmm)

theorem unmarkedCard_insert (h : Heap) {m : Finset Nat} {i : Nat}
    (hv : i ∈ idsOf h) (hm : i ∉ m) :
    unmarkedCard h (insert i m) + 1 = unmarkedCard h m := by
  unfold unmarkedCard
  rw [Finset.sdiff_insert,
    Finset.card_erase_of_mem (by simp [List.mem_toFinset, hv, hm])]
  have hpos : 0 < ((idsOf h).toFinset \ m).card :=
    Finset.card_pos.mpr ⟨i, by simp [List.mem_toFinset, hv, hm]⟩
  omega

/-- Splitting a path at the node `i`: either it never passes through
`i`, or its tail behind the last visit to `i` starts at one of `i`'s
children. -/
theorem ReachAvoid.split {h : Heap} {m : Finset Nat} {i : Nat}
    {o : HeapObject} (hio : lookupObject h i = some o) :
    ∀ {x j}, ReachAvoid h m x j →
      j = i ∨ ReachAvoid h (insert i m) x j ∨
        ∃ c ∈ childIds o, ReachAvoid h (insert i m) c j := by
  intro x j r
  induction r with
  | refl hl hm' =>
    rename_i x' o'
    by_cases hxi : x' = i
    · exact Or.inl hxi
    · exact Or.inr (Or.inl (.refl hl (by simp [hm', hxi])))
  | step hm' hl hch rsub ih =>
    rename_i x' c j' o'
    rcases ih with hji | hr | hex
    · exact Or.inl hji
    · by_cases hxi : x' = i
      · subst hxi
        rw [hio] at hl
        cases hl
        exact Or.inr (Or.inr ⟨c, hch, hr⟩)
      · exact Or.inr (Or.inl (.step (by simp [hm', hxi]) hl hch hr))
    · exact Or.inr (Or.inr hex)

/-- The central characterization: with more fuel than there are unmarked
objects, `mark_object h fuel m i` marks exactly `m` together with
everything reachable from `i` through currently-unmarked objects. -/
theorem markObject_char (h : Heap) :
    ∀ (n fuel : Nat) (m : Finset Nat) (i : Nat),
      unmarkedCard h m ≤ n → unmarkedCard h m < fuel →
      ∀ j, j ∈ markObject h fuel m i ↔ j ∈ m ∨ ReachAvoid h m i j := by
  intro n
  induction n using Nat.strong_induction_on with
  | _ n ihn =>
    intro fuel m i hn hfuel j
    cases fuel with
    | zero => omega
    | succ f =>
      cases hlook : lookupObject h i with
      | none =>
        simp only [markObject, hlook]
        constructor
        · exact Or.inl
        · rintro (hj | hr)
          · exact hj
          · obtain ⟨o, ho⟩ := hr.start_isSome
            rw [hlook] at ho
            cases ho
      | some o =>
        simp only [markObject, hlook]
        by_cases hm : i ∈ m
        · rw [if_pos hm]
          constructor
          · exact Or.inl
          · rintro (hj | hr)
            · exact hj
            · exact absurd hm hr.start_not_mem
        · rw [if_neg hm]
          have hiv : i ∈ idsOf h := lookupObject_mem_idsOf hlook
          have hcard : unmarkedCard h (insert i m) + 1 = unmarkedCard h m :=
            unmarkedCard_insert h hiv hm
          have haux : ∀ (cs2 cs1 : List Nat) (acc : Finset Nat),
              (∀ j', j' ∈ acc ↔ j' ∈ insert i m ∨
                ∃ c, c ∈ cs1 ∧ ReachAvoid h (insert i m) c j') →
              ∀ j', j' ∈ cs2.foldl (markObject h f) acc ↔
                j' ∈ insert i m ∨
                  ∃ c, c ∈ cs1 ++ cs2 ∧ ReachAvoid h (insert i m) c j' := by
            intro cs2
            induction cs2 with
            | nil =>
              intro cs1 acc hacc j'
              simpa using hacc j'
            | cons c rest ihrest =>
              intro cs1 acc hacc j'
              have hsub : insert i m ⊆ acc :=
                fun x hx => (hacc x).mpr (Or.inl hx)
              have hcardacc : unmarkedCard h acc ≤
                  unmarkedCard h (insert i m) :=
                unmarkedCard_le_of_subset h hsub
              have hchar : ∀ j'', j'' ∈ markObject h f acc c ↔
                  j'' ∈ acc ∨ ReachAvoid h acc c j'' :=
                ihn (unmarkedCard h (insert i m)) (by omega) f acc c
                  (by omega) (by omega)
              have hacc' : ∀ j'', j'' ∈ markObject h f acc c ↔
                  j'' ∈ insert i m ∨
                    ∃ c', c' ∈ cs1 ++ [c] ∧
                      ReachAvoid h (insert i m) c' j'' := by
                intro j''
                rw [hchar j'']
                constructor
                · rintro (hjacc | hr)
                  · rcases (hacc j'').mp hjacc with hj0 | ⟨c', hc', hr'⟩
                    · exact Or.inl hj0
                    · exact Or.inr ⟨c', by simp [hc'], hr'⟩
                  · exact Or.inr ⟨c, by simp, hr.anti hsub⟩
                · rintro (hj0 | ⟨c', hc', hr'⟩)
                  · exact Or.inl ((hacc j'').mpr (Or.inl hj0))
                  · rcases List.mem_append.mp hc' with hmem | hmem
                    · exact Or.inl ((hacc j'').mpr (Or.inr ⟨c', hmem, hr'⟩))
                    · have hc'c : c' = c := by simpa using hmem
                      subst hc'c
                      have hclosed : ∀ x ∈ acc \ insert i m, ∀ o',
                          lookupObject h x = some o' → ∀ cc ∈ childIds o',
                          cc ∉ insert i m → (lookupObject h cc).isSome →
                          cc ∈ acc \ insert i m := by
                        intro x hx o' hxo cc hcc hccm hccv
                        have hxacc := Finset.mem_sdiff.mp hx
                        rcases (hacc x).mp hxacc.1 with hx0 | ⟨cx, hcx, hrx⟩
                        · exact absurd hx0 hxacc.2
                        · obtain ⟨oc, hoc⟩ :=
                            Option.isSome_iff_exists.mp hccv
                          have hext : ReachAvoid h (insert i m) cx cc :=
                            hrx.extend hxo hcc hccm hoc
                          exact Finset.mem_sdiff.mpr
                            ⟨(hacc cc).mpr (Or.inr ⟨cx, hcx, hext⟩), hccm⟩
                      rcases ReachAvoid.absorb hclosed hr' with hjS | hrr
                      · exact Or.inl (Finset.mem_sdiff.mp hjS).1
                      · rw [Finset.union_sdiff_of_subset hsub] at hrr
                        exact Or.inr hrr
              have hres := ihrest (cs1 ++ [c]) (markObject h f acc c) hacc' j'
              simpa using hres
          have hfold := haux (childIds o) [] (insert i m)
            (by intro j'; simp) j
          rw [hfold]
          constructor
          · rintro (hj0 | ⟨c, hc, hr⟩)
            · rcases Finset.mem_insert.mp hj0 with hji | hjm
              · exact Or.inr (by rw [hji]; exact ReachAvoid.refl hlook hm)
              · exact Or.inl hjm
            · simp only [List.nil_append] at hc
              exact Or.inr
                (.step hm hlook hc (hr.anti (Finset.subset_insert i m)))
          · rintro (hj | hr)
            · exact Or.inl (Finset.mem_insert_of_mem hj)
            · rcases ReachAvoid.split hlook hr with hji | hrr | ⟨c, hc, hrc⟩
              · exact Or.inl (by rw [hji]; exact Finset.mem_insert_self i m)
              · exact absurd (Finset.mem_insert_self i m) hrr.start_not_mem
              · exact Or.inr ⟨c, by simpa using hc, hrc⟩

theorem unmarkedCard_le_length (h : Heap) (m : Finset Nat) :
    unmarkedCard h m ≤ h.length := by
  unfold unmarkedCard
  calc ((idsOf h).toFinset \ m).card
      ≤ (idsOf h).toFinset.card :=
        Finset.card_le_card (Finset.sdiff_subset)
    _ ≤ (idsOf h).length := List.toFinset_card_le _
    _ = h.length := List.length_map _ _

/-- The fold of `mark_object` over a list of start nodes, from an
accumulator already characterized by mark-free reachability. -/
theorem foldl_markObject_char (h : Heap) (fuel : Nat)
    (hfuel : h.length < fuel) :
    ∀ (cs2 cs1 : List Nat) (acc : Finset Nat),
      (∀ j, j ∈ acc ↔ ∃ c, c ∈ cs1 ∧ ReachAvoid h ∅ c j) →
      ∀ j, j ∈ cs2.foldl (markObject h fuel) acc ↔
        ∃ c, c ∈ cs1 ++ cs2 ∧ ReachAvoid h ∅ c j := by
  intro cs2
  induction cs2 with
  | nil =>
    intro cs1 acc hacc j
    simpa using hacc j
  | cons c rest ihrest =>
    intro cs1 acc hacc j
    have hchar : ∀ j', j' ∈ markObject h fuel acc c ↔
        j' ∈ acc ∨ ReachAvoid h acc c j' :=
      markObject_char h (unmarkedCard h acc) fuel acc c le_rfl
        (lt_of_le_of_lt (unmarkedCard_le_length h acc) hfuel)
    have hacc' : ∀ j', j' ∈ markObject h fuel acc c ↔
        ∃ c', c' ∈ cs1 ++ [c] ∧ ReachAvoid h ∅ c' j' := by
      intro j'
      rw [hchar j']
      constructor
      · rintro (hjacc | hr)
        · obtain ⟨c', hc', hr'⟩ := (hacc j').mp hjacc
          exact ⟨c', by simp [hc'], hr'⟩
        · exact ⟨c, by simp, hr.anti (Finset.empty_subset acc)⟩
      · rintro ⟨c', hc', hr'⟩
        rcases List.mem_append.mp hc' with hmem | hmem
        · exact Or.inl ((hacc j').mpr ⟨c', hmem, hr'⟩)
        · have hc'c : c' = c := by simpa using hmem
          subst hc'c
          have hclosed : ∀ x ∈ acc, ∀ o',
              lookupObject h x = some o' → ∀ cc ∈ childIds o',
              cc ∉ (∅ : Finset Nat) → (lookupObject h cc).isSome →
              cc ∈ acc := by
            intro x hx o' hxo cc hcc _ hccv
            obtain ⟨cx, hcx, hrx⟩ := (hacc x).mp hx
            obtain ⟨oc, hoc⟩ := Option.isSome_iff_exists.mp hccv
            exact (hacc cc).mpr
              ⟨cx, hcx, hrx.extend hxo hcc (Finset.not_mem_empty cc) hoc⟩
          rcases ReachAvoid.absorb hclosed hr' with hjS | hrr
          · exact Or.inl hjS
          · rw [Finset.empty_union] at hrr
            exact Or.inr hrr
    have hres := ihrest (cs1 ++ [c]) (markObject h fuel acc c) hacc' j
    simpa using hres

/-- `mark` marks exactly what is reachable from some root through the
(initially unmarked) heap. -/
theorem mark_char (gc : GCHeap) (hempty : gc.marks = ∅) :
    ∀ j, j ∈ gc.mark ↔
      ∃ r, r ∈ gc.roots ∧ ReachAvoid gc.objects ∅ r j := by
  intro j
  unfold GCHeap.mark
  rw [hempty]
  have := foldl_markObject_char gc.objects (gc.objects.length + 1)
    (Nat.lt_succ_self _) gc.roots [] ∅ (by intro j'; simp) j
  simpa using this

/-- The claim's reachability notion coincides with mark-free
`ReachAvoid` from some root, on well-formed collector states. -/
theorem reachable_iff_reachAvoid (gc : GCHeap) (hwf : gc.wf) (j : Nat) :
    Reachable gc.objects gc.roots j ↔
      ∃ r, r ∈ gc.roots ∧ ReachAvoid gc.objects ∅ r j := by
  constructor
  · intro hr
    induction hr with
    | root hroot =>
      rename_i i
      have hv : i ∈ idsOf gc.objects := hwf.2.2.1 i hroot
      obtain ⟨o, ho⟩ := Option.isSome_iff_exists.mp
        ((lookupObject_isSome gc.objects i).mpr hv)
      exact ⟨i, hroot, .refl ho (Finset.not_mem_empty i)⟩
    | child _ hlook hc ih =>
      rename_i j' c o _
      obtain ⟨r, hr, hpath⟩ := ih
      have hcv : c ∈ idsOf gc.objects :=
        hwf.2.2.2 o (lookupObject_mem hlook).1 c hc
      obtain ⟨oc, hoc⟩ := Option.isSome_iff_exists.mp
        ((lookupObject_isSome gc.objects c).mpr hcv)
      exact ⟨r, hr, hpath.extend hlook hc (Finset.not_mem_empty c) hoc⟩
  · rintro ⟨r, hr, hpath⟩
    have haux : ∀ {x j'}, ReachAvoid gc.objects ∅ x j' →
        Reachable gc.objects gc.roots x →
        Reachable gc.objects gc.roots j' := by
      intro x j' hpath'
      induction hpath' with
      | refl _ _ => exact id
      | step _ hl hc _ ih =>
        intro hx
        exact ih (.child hx hl hc)
    exact haux hpath (.root hr)

theorem sweepObjects_spec (m : Finset Nat) (h : Heap) :
    (sweepObjects m h).1 = h.filter (fun o => decide (o.id ∈ m)) ∧
    (sweepObjects m h).2 =
      (h.filter (fun o => decide (o.id ∉ m))).map (·.id) := by
  induction h with
  | nil => exact ⟨rfl, rfl⟩
  | cons o rest ih =>
    by_cases hm : o.id ∈ m
    · simp [sweepObjects, ih.1, ih.2, List.filter_cons, hm]
    · simp [sweepObjects, ih.1, ih.2, List.filter_cons, hm]

theorem mem_idsOf_filter (h : Heap) (p : HeapObject → Bool) (i : Nat) :
    i ∈ idsOf (h.filter p) ↔ ∃ o, o ∈ h ∧ p o = true ∧ o.id = i := by
  unfold idsOf
  constructor
  · intro hmem
    obtain ⟨o, ho, hid⟩ := List.mem_map.mp hmem
    obtain ⟨ho', hp⟩ := List.mem_filter.mp ho
    exact ⟨o, ho', hp, hid⟩
  · rintro ⟨o, ho, hp, hid⟩
    exact List.mem_map.mpr ⟨o, List.mem_filter.mpr ⟨ho, hp⟩, hid⟩

/-- C1: after `collect()` returns, every object reachable from the
registered roots — following, for `StringArray` objects, the non-null
element slots `[0, length)` — is still on the all-objects list and was
not freed, and every object that was on the list but is unreachable has
been freed and unlinked.  `gc.collect.2` is the list of freed object
addresses, `gc.collect.1.objects` the surviving all-objects list. -/
theorem collect_frees_exactly_unreachable (gc : GCHeap) (hwf : gc.wf) :
    (∀ i, Reachable gc.objects gc.roots i →
      i ∈ idsOf gc.collect.1.objects ∧ i ∉ gc.collect.2) ∧
    (∀ i, i ∈ idsOf gc.objects → ¬ Reachable gc.objects gc.roots i →
      i ∈ gc.collect.2 ∧ i ∉ idsOf gc.collect.1.objects) := by
  have hmark : ∀ j, j ∈ gc.mark ↔ Reachable gc.objects gc.roots j := by
    intro j
    rw [mark_char gc hwf.2.1, ← reachable_iff_reachAvoid gc hwf]
  have hkept : gc.collect.1.objects =
      gc.objects.filter (fun o => decide (o.id ∈ gc.mark)) :=
    (sweepObjects_spec gc.mark gc.objects).1
  have hfreed : gc.collect.2 =
      (gc.objects.filter (fun o => decide (o.id ∉ gc.mark))).map (·.id) :=
    (sweepObjects_spec gc.mark gc.objects).2
  constructor
  · intro i hreach
    have hi : i ∈ gc.mark := (hmark i).mpr hreach
    have hv : i ∈ idsOf gc.objects := by
      obtain ⟨r, _, hpath⟩ := (reachable_iff_reachAvoid gc hwf i).mp hreach
      obtain ⟨_, o, ho⟩ := hpath.end_spec
      exact lookupObject_mem_idsOf ho
    obtain ⟨o, ho, hid⟩ := List.mem_map.mp hv
    constructor
    · rw [hkept]
      exact (mem_idsOf_filter _ _ i).mpr ⟨o, ho, by simp [hid, hi], hid⟩
    · rw [hfreed]
      intro hcon
      obtain ⟨o', ho', hid'⟩ := List.mem_map.mp hcon
      obtain ⟨_, hp⟩ := List.mem_filter.mp ho'
      rw [hid'] at hp
      simp [hi] at hp
  · intro i hv hunreach
    have hi : i ∉ gc.mark := fun hc => hunreach ((hmark i).mp hc)
    obtain ⟨o, ho, hid⟩ := List.mem_map.mp hv
    constructor
    · rw [hfreed]
      exact List.mem_map.mpr
        ⟨o, List.mem_filter.mpr ⟨ho, by simp [hid, hi]⟩, hid⟩
    · rw [hkept]
      intro hcon
      obtain ⟨o', ho', hp', hid'⟩ := (mem_idsOf_filter _ _ i).mp hcon
      rw [hid'] at hp'
      simp [hi] at hp'

/-- A concrete well-formed state: a rooted string array (address 1)
holding the string at address 2 in its first slot and a null in its
second, plus an unrooted int array (address 3). -/
def exampleGC : GCHeap :=
  { objects :=
      [{ id := 1, otype := .stringArray, slots := [some 2, none] },
       { id := 2, otype := .string, slots := [] },
       { id := 3, otype := .intArray, slots := [] }]
    marks := ∅
    roots := [1] }

/-- Witness for C1: the collect correctness applied to `exampleGC`. -/
theorem collect_frees_exactly_unreachable_witness :
    exampleGC.wf ∧
    ((∀ i, Reachable exampleGC.objects exampleGC.roots i →
      i ∈ idsOf exampleGC.collect.1.objects ∧ i ∉ exampleGC.collect.2) ∧
     (∀ i, i ∈ idsOf exampleGC.objects →
      ¬ Reachable exampleGC.objects exampleGC.roots i →
      i ∈ exampleGC.collect.2 ∧
        i ∉ idsOf exampleGC.collect.1.objects)) :=
  ⟨by decide, collect_frees_exactly_unreachable exampleGC (by decide)⟩

end Naviary
